import Mathlib

/-!
Verification of the `ph` sensor driver (`ph_sensor.py`) against its design
specification.  The development embeds, as Lean functions over exact
arithmetic (`ℚ`, `ℝ`), the edge-callback state machine `Sensor._cbf`, the
delay-adaptation step of `Sensor.run`, the configuration setters, the RGB
normalisation `Sensor.get_rgb`, the classifier scan of `Sensor.get_ph`, and
the button handler `Sensor.narrow_read`, and proves or refutes the spec's
claims about them.
-/

namespace PhSensor

/-! ## Frequency counter state machine (`Sensor._cbf`) -/

/-- Models the external helper `pigpio.tickDiff(t1, t2)` (the pigpio library
is the Edge Feed collaborator; its ticks are 32-bit microsecond counts):
`tDiff = t2 - t1; if tDiff < 0: tDiff += (1 << 32); return tDiff`. -/
def tickDiff (t1 t2 : ℕ) : ℤ :=
  let tDiff : ℤ := (t2 : ℤ) - (t1 : ℤ)
  if tDiff < 0 then tDiff + 2 ^ 32 else tDiff

/-- The mutable fields of `Sensor` touched by the edge callback `_cbf`:
`_cycle`, `_start_tick`, `_last_tick`, the working arrays `_hertz`/`_tally`
and the public (committed) arrays `hertz`/`tally`.  Hertz values are
Python floats from a true division; they are modelled as exact rationals. -/
structure CounterState where
  cycle : ℕ
  startTick : ℕ
  lastTick : ℕ
  hertzW : Fin 3 → ℚ
  tallyW : Fin 3 → ℕ
  hertz : Fin 3 → ℚ
  tally : Fin 3 → ℕ
deriving DecidableEq

/-- An edge event delivered to `_cbf`: a rising edge on the OUT (frequency)
line with its tick, or an either-edge event on select line S2 or S3 with the
new level. Ticks on select-line events are unused by `_cbf`. -/
inductive Edge where
  | out (t : ℕ)
  | s2 (l : Bool)
  | s3 (l : Bool)
deriving DecidableEq

/-- The window-closing block of `_cbf` for a finished `colour`
(0 = red, 1 = green, 2 = blue):
`if cycle > 1: cycle -= 1; td = tickDiff(start, last);
_hertz[colour] = (1000000*cycle)/td; _tally[colour] = cycle
else: _hertz[colour] = 0; _tally[colour] = 0`, then `cycle = 0`. -/
def closeWindow (st : CounterState) (colour : Fin 3) : CounterState :=
  if 1 < st.cycle then
    let c := st.cycle - 1
    let td := tickDiff st.startTick st.lastTick
    { st with
        hertzW := Function.update st.hertzW colour ((1000000 * c : ℤ) / (td : ℚ))
        tallyW := Function.update st.tallyW colour c
        cycle := 0 }
  else
    { st with
        hertzW := Function.update st.hertzW colour 0
        tallyW := Function.update st.tallyW colour 0
        cycle := 0 }

/-- The tail of `_cbf`: `if colour == 1: self.hertz[i] = self._hertz[i];
self.tally[i] = self._tally[i]` — the commit of the working triplet to the
public one when the Green window has just closed. -/
def commitIfGreen (st : CounterState) (colour : Fin 3) : CounterState :=
  if colour = 1 then { st with hertz := st.hertzW, tally := st.tallyW } else st

/-- One invocation of `Sensor._cbf` on an edge event.
On OUT: first edge of a window records `start_tick`, later edges record
`last_tick`, and `_cycle` is incremented.
On S2 low (Clear→Red): `_cycle = 0` and return.
On S2 high (Blue→Green): close window for colour 2.
On S3 low (Green→Clear): close window for colour 1, then commit.
On S3 high (Red→Blue): close window for colour 0. -/
def cbf (st : CounterState) : Edge → CounterState
  | .out t =>
      if st.cycle = 0 then { st with startTick := t, cycle := st.cycle + 1 }
      else { st with lastTick := t, cycle := st.cycle + 1 }
  | .s2 l =>
      if l = false then { st with cycle := 0 }
      else commitIfGreen (closeWindow st 2) 2
  | .s3 l =>
      if l = false then commitIfGreen (closeWindow st 1) 1
      else commitIfGreen (closeWindow st 0) 0

/-- The colour whose window a select-line event closes, when it closes one:
S2 high closes Blue (2), S3 low closes Green (1), S3 high closes Red (0);
OUT edges and S2 low (Clear→Red) close no window. -/
def closingColour : Edge → Option (Fin 3)
  | .out _ => none
  | .s2 false => none
  | .s2 true => some 2
  | .s3 false => some 1
  | .s3 true => some 0

/-- A concrete counter state used by the witnesses: 3 cycles seen in the
current window, start tick 10, last tick 30. -/
def testState : CounterState where
  cycle := 3
  startTick := 10
  lastTick := 30
  hertzW := fun _ => 5
  tallyW := fun _ => 5
  hertz := fun _ => 7
  tally := fun _ => 7

lemma closeWindow_cycle (st : CounterState) (colour : Fin 3) :
    (closeWindow st colour).cycle = 0 := by
  unfold closeWindow
  split <;> rfl

lemma commitIfGreen_cycle (st : CounterState) (colour : Fin 3) :
    (commitIfGreen st colour).cycle = st.cycle := by
  unfold commitIfGreen
  split <;> rfl

lemma commitIfGreen_hertzW (st : CounterState) (colour : Fin 3) :
    (commitIfGreen st colour).hertzW = st.hertzW := by
  unfold commitIfGreen
  split <;> rfl

lemma commitIfGreen_tallyW (st : CounterState) (colour : Fin 3) :
    (commitIfGreen st colour).tallyW = st.tallyW := by
  unfold commitIfGreen
  split <;> rfl

lemma tickDiff_of_le {t1 t2 : ℕ} (h : t1 ≤ t2) :
    tickDiff t1 t2 = (t2 : ℤ) - (t1 : ℤ) := by
  unfold tickDiff
  rw [if_neg]
  simp only [not_lt, sub_nonneg]
  exact_mod_cast h

lemma cbf_close_eq (st : CounterState) (e : Edge) (col : Fin 3)
    (hcol : closingColour e = some col) :
    cbf st e = commitIfGreen (closeWindow st col) col := by
  cases e with
  | out t => simp [closingColour] at hcol
  | s2 l =>
      cases l with
      | false => simp [closingColour] at hcol
      | true =>
          simp only [closingColour, Option.some.injEq] at hcol
          subst hcol; rfl
  | s3 l =>
      cases l with
      | false =>
          simp only [closingColour, Option.some.injEq] at hcol
          subst hcol; rfl
      | true =>
          simp only [closingColour, Option.some.injEq] at hcol
          subst hcol; rfl

/-- C1: every window-closing select-line transition (anything but
Clear→Red) commits, for the finished colour, `hertz =
1_000_000 * (cycleCount - 1) / (lastTick - startTick)` and
`tally = cycleCount - 1` when `cycleCount > 1`, sets both to 0 when
`cycleCount` is 0 or 1, and resets `cycleCount` to 0 in either case.
(The hypothesis `startTick ≤ lastTick` makes the wrap-safe `tickDiff`
agree with the plain difference the claim states; see C9 for the wrapped
case.) -/
theorem c1_window_close (st : CounterState) (e : Edge) (col : Fin 3)
    (hcol : closingColour e = some col)
    (hticks : st.startTick ≤ st.lastTick) :
    (cbf st e).cycle = 0 ∧
    (1 < st.cycle →
      (cbf st e).hertzW col =
        1000000 * ((st.cycle : ℚ) - 1) / ((st.lastTick : ℚ) - (st.startTick : ℚ)) ∧
      (cbf st e).tallyW col = st.cycle - 1) ∧
    (st.cycle ≤ 1 →
      (cbf st e).hertzW col = 0 ∧ (cbf st e).tallyW col = 0) := by
  rw [cbf_close_eq st e col hcol]
  refine ⟨by rw [commitIfGreen_cycle, closeWindow_cycle], ?_, ?_⟩
  · intro hcyc
    rw [commitIfGreen_hertzW, commitIfGreen_tallyW]
    unfold closeWindow
    rw [if_pos hcyc]
    simp only [Function.update_same]
    constructor
    · rw [tickDiff_of_le hticks]
      have h1 : (1 : ℕ) ≤ st.cycle := le_of_lt hcyc
      push_cast [h1]
      ring_nf
    · trivial
  · intro hcyc
    rw [commitIfGreen_hertzW, commitIfGreen_tallyW]
    unfold closeWindow
    rw [if_neg (by omega)]
    simp only [Function.update_same]
    exact ⟨trivial, trivial⟩

/-- Witness for C1 at a concrete closing transition (Red→Blue, S3 high)
from `testState` (3 cycles, ticks 10→30). -/
theorem c1_window_close_witness :
    closingColour (Edge.s3 true) = some 0 ∧
    testState.startTick ≤ testState.lastTick ∧
    ((cbf testState (Edge.s3 true)).cycle = 0 ∧
     (1 < testState.cycle →
       (cbf testState (Edge.s3 true)).hertzW 0 =
         1000000 * ((testState.cycle : ℚ) - 1) /
           ((testState.lastTick : ℚ) - (testState.startTick : ℚ)) ∧
       (cbf testState (Edge.s3 true)).tallyW 0 = testState.cycle - 1) ∧
     (testState.cycle ≤ 1 →
       (cbf testState (Edge.s3 true)).hertzW 0 = 0 ∧
       (cbf testState (Edge.s3 true)).tallyW 0 = 0)) :=
  ⟨by decide, by decide,
   c1_window_close testState (Edge.s3 true) 0 (by decide) (by decide)⟩

lemma closeWindow_hertz (st : CounterState) (colour : Fin 3) :
    (closeWindow st colour).hertz = st.hertz := by
  unfold closeWindow
  split <;> rfl

lemma closeWindow_tally (st : CounterState) (colour : Fin 3) :
    (closeWindow st colour).tally = st.tally := by
  unfold closeWindow
  split <;> rfl

lemma commitIfGreen_of_ne (st : CounterState) (colour : Fin 3)
    (h : colour ≠ 1) : commitIfGreen st colour = st := by
  unfold commitIfGreen
  rw [if_neg h]

/-- C2: the public triplet (`hertz`/`tally`) is mutated only by the
Green→Clear transition (select line S3 going low), where the three working
channel values are copied into it wholesale; Clear→Red (S2 going low) only
zeroes the cycle counter and commits nothing; no other edge event touches
the public triplet. -/
theorem c2_commit_point (st : CounterState) :
    (∀ e : Edge, e ≠ Edge.s3 false →
      (cbf st e).hertz = st.hertz ∧ (cbf st e).tally = st.tally) ∧
    cbf st (Edge.s2 false) = { st with cycle := 0 } ∧
    ((cbf st (Edge.s3 false)).hertz = (closeWindow st 1).hertzW ∧
     (cbf st (Edge.s3 false)).tally = (closeWindow st 1).tallyW) := by
  refine ⟨?_, rfl, ?_⟩
  · intro e he
    cases e with
    | out t =>
        simp only [cbf]
        split <;> exact ⟨rfl, rfl⟩
    | s2 l =>
        cases l with
        | false => exact ⟨rfl, rfl⟩
        | true =>
            simp only [cbf, if_neg (by decide : ¬(true = false))]
            rw [commitIfGreen_of_ne _ _ (by decide)]
            exact ⟨closeWindow_hertz st 2, closeWindow_tally st 2⟩
    | s3 l =>
        cases l with
        | false => exact absurd rfl he
        | true =>
            simp only [cbf, if_neg (by decide : ¬(true = false))]
            rw [commitIfGreen_of_ne _ _ (by decide)]
            exact ⟨closeWindow_hertz st 0, closeWindow_tally st 0⟩
  · show (commitIfGreen (closeWindow st 1) 1).hertz = _ ∧
        (commitIfGreen (closeWindow st 1) 1).tally = _
    unfold commitIfGreen
    rw [if_pos rfl]
    exact ⟨rfl, rfl⟩

/-- Witness for C2: an OUT edge (a frequency pulse) leaves the public
triplet of `testState` untouched. -/
theorem c2_commit_point_witness :
    Edge.out 5 ≠ Edge.s3 false ∧
    ((cbf testState (Edge.out 5)).hertz = testState.hertz ∧
     (cbf testState (Edge.out 5)).tally = testState.tally) :=
  ⟨by decide, (c2_commit_point testState).1 (Edge.out 5) (by decide)⟩

lemma tickDiff_nonneg {t1 t2 : ℕ} (h1 : t1 < 2 ^ 32) :
    0 ≤ tickDiff t1 t2 := by
  simp only [tickDiff]
  split
  · have : (t1 : ℤ) < 2 ^ 32 := by exact_mod_cast h1
    have ht2 : (0 : ℤ) ≤ (t2 : ℤ) := Int.ofNat_nonneg t2
    omega
  · omega

lemma tickDiff_eq_emod {t1 t2 : ℕ} (h1 : t1 < 2 ^ 32) (h2 : t2 < 2 ^ 32) :
    tickDiff t1 t2 = ((t2 : ℤ) - (t1 : ℤ)) % 2 ^ 32 := by
  have h1' : (t1 : ℤ) < 2 ^ 32 := by exact_mod_cast h1
  have h2' : (t2 : ℤ) < 2 ^ 32 := by exact_mod_cast h2
  have ht1 : (0 : ℤ) ≤ (t1 : ℤ) := Int.ofNat_nonneg t1
  have ht2 : (0 : ℤ) ≤ (t2 : ℤ) := Int.ofNat_nonneg t2
  simp only [tickDiff]
  split
  · rename_i hneg
    omega
  · rename_i hpos
    omega

/-- C9: the elapsed ticks fed to the Hertz division come from
`pigpio.tickDiff`, which is modular subtraction modulo `2^32`, so for any
start/last ticks in range — including a wrapped pair — the elapsed value is
non-negative, equals the tick difference mod `2^32`, and the Hertz value
computed at a window close is never negative. -/
theorem c9_wraparound (st : CounterState) (e : Edge) (col : Fin 3)
    (hcol : closingColour e = some col)
    (hcyc : 1 < st.cycle)
    (h1 : st.startTick < 2 ^ 32) (h2 : st.lastTick < 2 ^ 32) :
    tickDiff st.startTick st.lastTick =
      ((st.lastTick : ℤ) - (st.startTick : ℤ)) % 2 ^ 32 ∧
    0 ≤ tickDiff st.startTick st.lastTick ∧
    (cbf st e).hertzW col =
      1000000 * ((st.cycle : ℚ) - 1) /
        ((tickDiff st.startTick st.lastTick : ℤ) : ℚ) ∧
    0 ≤ (cbf st e).hertzW col := by
  have hmod := tickDiff_eq_emod h1 h2
  have hnn := @tickDiff_nonneg st.startTick st.lastTick h1
  have hform : (cbf st e).hertzW col =
      1000000 * ((st.cycle : ℚ) - 1) /
        ((tickDiff st.startTick st.lastTick : ℤ) : ℚ) := by
    rw [cbf_close_eq st e col hcol, commitIfGreen_hertzW]
    unfold closeWindow
    rw [if_pos hcyc]
    simp only [Function.update_same]
    have h1' : (1 : ℕ) ≤ st.cycle := le_of_lt hcyc
    push_cast [h1']
    ring_nf
  refine ⟨hmod, hnn, hform, ?_⟩
  rw [hform]
  apply div_nonneg
  · have : (1 : ℚ) ≤ (st.cycle : ℚ) := by exact_mod_cast le_of_lt hcyc
    nlinarith
  · exact_mod_cast hnn

/-- A counter state whose window straddles the 32-bit tick rollover:
start tick `2^32 - 10`, last tick `30`. -/
def testStateWrap : CounterState where
  cycle := 3
  startTick := 2 ^ 32 - 10
  lastTick := 30
  hertzW := fun _ => 5
  tallyW := fun _ => 5
  hertz := fun _ => 7
  tally := fun _ => 7

/-- Witness for C9 at the wrapped state `testStateWrap` and the Blue→Green
closing transition (S2 high). -/
theorem c9_wraparound_witness :
    closingColour (Edge.s2 true) = some 2 ∧
    1 < testStateWrap.cycle ∧
    testStateWrap.startTick < 2 ^ 32 ∧ testStateWrap.lastTick < 2 ^ 32 ∧
    (tickDiff testStateWrap.startTick testStateWrap.lastTick =
      ((testStateWrap.lastTick : ℤ) - (testStateWrap.startTick : ℤ)) % 2 ^ 32 ∧
    0 ≤ tickDiff testStateWrap.startTick testStateWrap.lastTick ∧
    (cbf testStateWrap (Edge.s2 true)).hertzW 2 =
      1000000 * ((testStateWrap.cycle : ℚ) - 1) /
        ((tickDiff testStateWrap.startTick testStateWrap.lastTick : ℤ) : ℚ) ∧
    0 ≤ (cbf testStateWrap (Edge.s2 true)).hertzW 2) :=
  ⟨by decide, by norm_num [testStateWrap], by norm_num [testStateWrap],
   by norm_num [testStateWrap],
   c9_wraparound testStateWrap (Edge.s2 true) 2 (by decide)
     (by norm_num [testStateWrap]) (by norm_num [testStateWrap])
     (by norm_num [testStateWrap])⟩

/-! ## Configuration setters -/

/-- `Sensor.set_update_interval(t)`:
`if (t >= 0.1) and (t < 2.0): self._interval = t` — returns the stored
interval after the call, given the previously stored one
(`get_update_interval` returns the stored value unchanged). -/
def set_update_interval (interval t : ℚ) : ℚ :=
  if 1 / 10 ≤ t ∧ t < 2 then t else interval

/-- C4 counterexample: with a stored interval of 1, setting `t = 5`
(outside `[0.1, 2.0)`) leaves the stored interval at 1 — the previous
value, which the claim rules out — rather than clamping toward the upper
bound. -/
theorem c4_counterexample :
    set_update_interval 1 5 = 1 ∧ set_update_interval 1 5 ≠ 2 := by
  constructor <;> norm_num [set_update_interval]

/-- C4 amended: `set_update_interval` silently ignores any `t` outside
`[0.1, 2.0)`; the getter then returns the previous interval, not a
clamped value. -/
theorem c4_interval_ignored (interval t : ℚ)
    (h : ¬(1 / 10 ≤ t ∧ t < 2)) :
    set_update_interval interval t = interval := by
  unfold set_update_interval
  rw [if_neg h]

/-- Witness for the amended C4 at `interval = 1`, `t = 5`. -/
theorem c4_interval_ignored_witness :
    ¬((1 : ℚ) / 10 ≤ 5 ∧ (5 : ℚ) < 2) ∧ set_update_interval 1 5 = 1 :=
  ⟨by norm_num, c4_interval_ignored 1 5 (by norm_num)⟩

/-! ## Read-request handling (`Sensor.narrow_read`) -/

/-- The state visible to `Sensor.narrow_read`: the `reading` flag and a log
of the data files handed to `get_ph`, in order.  The Python object holds no
queue of pending requests, so this is the whole request-relevant state. -/
structure ButtonState where
  reading : Bool
  reads : List String
deriving DecidableEq

/-- `Sensor.narrow_read(gpio, level, tick)`:
`if not self.reading: self.reading = True; self.short_chime();
self.get_ph(HOME + "/narrow_data.csv")` — and returns `None` either way. -/
def narrow_read (st : ButtonState) : ButtonState :=
  if st.reading = false then
    { reading := true, reads := st.reads ++ ["narrow_data.csv"] }
  else st

/-- C6: a read request arriving while `reading` is set leaves the state
completely unchanged — no read is performed and nothing is recorded for
later service, so the request is discarded, not queued. -/
theorem c6_request_discarded (st : ButtonState) (h : st.reading = true) :
    narrow_read st = st := by
  unfold narrow_read
  rw [if_neg (by simp [h])]

/-- Witness for C6: a button press with `reading = true` and no reads
logged changes nothing. -/
theorem c6_request_discarded_witness :
    (ButtonState.mk true []).reading = true ∧
    narrow_read (ButtonState.mk true []) = ButtonState.mk true [] :=
  ⟨rfl, c6_request_discarded (ButtonState.mk true []) rfl⟩

/-! ## Delay adaptation (tail of `Sensor.run`) -/

/-- The constraining block of `Sensor.run`:
`if dly < 0.001: dly = 0.001 elif dly > 0.5: dly = 0.5`. -/
def clampDelay (dly : ℚ) : ℚ :=
  if dly < 1 / 1000 then 1 / 1000
  else if 1 / 2 < dly then 1 / 2
  else dly

/-- One per-channel step of the delay-tuning loop at the end of
`Sensor.run`: `if self.hertz[c]: dly = self._samples / float(self.hertz[c])
else: dly = self._delay[c] + 0.1`, then the clamp. -/
def nextDelay (samples : ℕ) (hz prev : ℚ) : ℚ :=
  clampDelay (if hz ≠ 0 then (samples : ℚ) / hz else prev + 1 / 10)

lemma clampDelay_mem (dly : ℚ) :
    1 / 1000 ≤ clampDelay dly ∧ clampDelay dly ≤ 1 / 2 := by
  unfold clampDelay
  split_ifs with h1 h2
  · norm_num
  · norm_num
  · constructor <;> linarith [not_lt.mp h1, not_lt.mp h2]

/-- C7: for every channel, when the last committed Hertz `hz` is nonzero
the next delay is `samples / hz` clamped to `[0.001, 0.5]`; when `hz = 0`
it is the previous delay plus `0.1`, clamped to the same bounds; and the
result always lies in `[0.001, 0.5]`. -/
theorem c7_delay_adaptation (samples : ℕ) (hz prev : ℚ) :
    (hz ≠ 0 → nextDelay samples hz prev = clampDelay ((samples : ℚ) / hz)) ∧
    (hz = 0 → nextDelay samples hz prev = clampDelay (prev + 1 / 10)) ∧
    1 / 1000 ≤ nextDelay samples hz prev ∧
    nextDelay samples hz prev ≤ 1 / 2 := by
  refine ⟨fun h => ?_, fun h => ?_, clampDelay_mem _⟩
  · unfold nextDelay
    rw [if_pos h]
  · unfold nextDelay
    rw [if_neg (by simp [h])]

/-- Witness for C7 at `samples = 20`, `hz = 200`, `prev = 0.1`:
the nonzero-Hertz branch gives the clamped `20 / 200`. -/
theorem c7_delay_adaptation_witness :
    (200 : ℚ) ≠ 0 ∧
    nextDelay 20 200 (1 / 10) = clampDelay ((20 : ℚ) / 200) :=
  ⟨by norm_num, (c7_delay_adaptation 20 200 (1 / 10)).1 (by norm_num)⟩

/-! ## RGB normalisation (`Sensor.get_rgb`) -/

/-- `Sensor.get_rgb(top)`, one channel `c`.  The method builds
`rgb = [0] * 3`, then per channel:
`v = hertz[c] - black[c]; s = white[c] - black[c]; p = top * v / s;
if p < 0: p = 0
elif p > top: p = top; rgb[c] = p` — the assignment `rgb[c] = p` is
indented inside the `elif` body, so the returned entry is `top` when
`p > top` and the initial 0 in every other case. -/
def get_rgb (hertz black white : Fin 3 → ℚ) (top : ℚ) (c : Fin 3) : ℚ :=
  let v := hertz c - black c
  let s := white c - black c
  let p := top * v / s
  if p < 0 then 0
  else if top < p then top
  else 0

/-- C10: for a positive `top` (and distinct white/black levels, which the
Python division requires), each entry returned by `get_rgb` is either 0 or
`top`, and it is `top` exactly when the normalised value
`top * (hertz - black) / (white - black)` strictly exceeds `top`; an
in-range normalised value is never returned. -/
theorem c10_rgb_saturated (hertz black white : Fin 3 → ℚ) (top : ℚ)
    (c : Fin 3) (htop : 0 < top) (_hs : white c - black c ≠ 0) :
    (get_rgb hertz black white top c = 0 ∨
     get_rgb hertz black white top c = top) ∧
    (get_rgb hertz black white top c = top ↔
      top < top * (hertz c - black c) / (white c - black c)) := by
  simp only [get_rgb]
  split_ifs with h1 h2
  · refine ⟨Or.inl rfl, ?_, fun hlt => absurd hlt (by linarith)⟩
    intro h0
    exact absurd h0.symm (ne_of_gt htop)
  · exact ⟨Or.inr rfl, fun _ => h2, fun _ => rfl⟩
  · refine ⟨Or.inl rfl, ?_, fun hlt => absurd hlt h2⟩
    intro h0
    exact absurd h0.symm (ne_of_gt htop)

/-- The fixed calibration defaults of `Sensor.__init__`
(`_rgb_black = [0]*3`, `_rgb_white = [10000]*3`) and a saturating Hertz
triplet, used by the C10 witness. -/
def testBlack : Fin 3 → ℚ := fun _ => 0

def testWhite : Fin 3 → ℚ := fun _ => 10000

def testHertz : Fin 3 → ℚ := fun _ => 20000

/-- Witness for C10 at `hertz = 20000`, default calibration, `top = 255`:
the normalised value 510 exceeds 255, so the entry saturates to 255. -/
theorem c10_rgb_saturated_witness :
    (0 : ℚ) < 255 ∧ testWhite 0 - testBlack 0 ≠ 0 ∧
    ((get_rgb testHertz testBlack testWhite 255 0 = 0 ∨
      get_rgb testHertz testBlack testWhite 255 0 = 255) ∧
     (get_rgb testHertz testBlack testWhite 255 0 = 255 ↔
       (255 : ℚ) < 255 * (testHertz 0 - testBlack 0) /
         (testWhite 0 - testBlack 0))) :=
  ⟨by norm_num, by norm_num [testWhite, testBlack],
   c10_rgb_saturated testHertz testBlack testWhite 255 0 (by norm_num)
     (by norm_num [testWhite, testBlack])⟩

/-! ## Classifier (`Sensor.get_ph`)

The classifier works on Python floats (`math.sqrt`, `math.acos`, true
division); it is modelled over `ℝ`.  A Python `ZeroDivisionError` raised by
`cos_theta = dotproduct / (v_length * s_length)` is modelled as
`Except.error ()`. -/

noncomputable section

/-- `dotproduct = v[0]*sample[0] + v[1]*sample[1] + v[2]*sample[2]`. -/
def dot3 (v s : ℝ × ℝ × ℝ) : ℝ :=
  v.1 * s.1 + v.2.1 * s.2.1 + v.2.2 * s.2.2

/-- `math.sqrt(x[0]**2 + x[1]**2 + x[2]**2)` — the Euclidean length
computed for the reference triplet (`v_length`) and the sample
(`s_length`). -/
def len3 (x : ℝ × ℝ × ℝ) : ℝ :=
  Real.sqrt (x.1 ^ 2 + x.2.1 ^ 2 + x.2.2 ^ 2)

/-- The reference scan of `Sensor.get_ph`: iterate the table in order,
starting from `min_angle = 360` and `ph_found = None`; for each entry
compute `theta = acos(dotproduct / (v_length * s_length))` and keep the
entry when `theta < min_angle`.  A zero denominator raises
`ZeroDivisionError`, modelled as `Except.error ()`. -/
def scanRefs (sample : ℝ × ℝ × ℝ) :
    List (String × (ℝ × ℝ × ℝ)) → ℝ → Option String →
      Except Unit (Option String)
  | [], _, best => .ok best
  | (pH, v) :: rest, minAngle, best =>
      if len3 v * len3 sample = 0 then .error ()
      else
        let theta := Real.arccos (dot3 v sample / (len3 v * len3 sample))
        if theta < minAngle then scanRefs sample rest theta (some pH)
        else scanRefs sample rest minAngle best

/-- The value `Sensor.get_ph` returns to its caller: the literal `0` of
`return 0` on the no-usable-sample path, or Python's implicit `None` when
control falls off the end of the method. -/
inductive PhReturn where
  | zero
  | noneVal
deriving DecidableEq

/-- The caller-visible outcome of `Sensor.get_ph`: the returned value and
the label handed to audio playback (`find_audio_file` / `omxplayer`),
`none` when no playback is attempted with a label from the scan. -/
structure PhOutcome where
  retval : PhReturn
  audio : Option String
deriving DecidableEq

/-- `Sensor.get_ph(file)` after the table load (CSV parsing belongs to the
external collaborator; `refData` is the loaded table in row order).
`sample = self.get_hertz()` is always the three-element `hertz` list, so
the live part of `if sample is None or not sample or all(v == 0 ...)` is
the all-zero test; on it the method returns `0`.  Otherwise the scan runs,
the winning label is handed to audio playback, and the method returns
`None`. -/
def get_ph (refData : List (String × (ℝ × ℝ × ℝ))) (sample : ℝ × ℝ × ℝ) :
    Except Unit PhOutcome :=
  if sample.1 = 0 ∧ sample.2.1 = 0 ∧ sample.2.2 = 0 then
    .ok ⟨.zero, none⟩
  else
    (scanRefs sample refData 360 none).map fun best => ⟨.noneVal, best⟩

end

/-- C3 counterexample: with the nonzero sample `(1,1,1)` and a table whose
single entry is the all-zero triplet, the scan reaches the `cos_theta`
division with a zero denominator and raises `ZeroDivisionError` — the
zero-magnitude entry is not skipped. -/
theorem c3_counterexample :
    scanRefs (1, 1, 1) [("7", (0, 0, 0))] 360 none = .error () := by
  have h0 : len3 ((0 : ℝ), (0 : ℝ), (0 : ℝ)) = 0 := by
    simp [len3]
  simp only [scanRefs]
  rw [if_pos (by rw [h0, zero_mul])]

lemma scanRefs_error_of_zero_ref (sample : ℝ × ℝ × ℝ)
    (_hs : len3 sample ≠ 0) :
    ∀ (table : List (String × (ℝ × ℝ × ℝ))) (minAngle : ℝ)
      (best : Option String),
      (∃ e ∈ table, len3 e.2 = 0) →
      scanRefs sample table minAngle best = .error () := by
  intro table
  induction table with
  | nil =>
      rintro _ _ ⟨e, he, _⟩
      exact absurd he (List.not_mem_nil e)
  | cons hd tl ih =>
      rintro minAngle best ⟨e, he, hze⟩
      obtain ⟨pH, v⟩ := hd
      by_cases hv : len3 v * len3 sample = 0
      · simp [scanRefs, hv]
      · rcases List.mem_cons.mp he with rfl | hmem
        · exact absurd (by rw [hze, zero_mul]) hv
        · simp only [scanRefs]
          rw [if_neg hv]
          split
          · exact ih _ _ ⟨e, hmem, hze⟩
          · exact ih _ _ ⟨e, hmem, hze⟩

/-- C3 amended: a zero-magnitude reference entry is not skipped — whenever
the table contains one (and the sample has nonzero length, so no earlier
entry fails first for the sample's sake), the scan necessarily hits the
division by zero and the classification fails with `ZeroDivisionError`;
the only protection is rejecting such rows at table-load time. -/
theorem c3_zero_ref_reaches_division (sample : ℝ × ℝ × ℝ)
    (table : List (String × (ℝ × ℝ × ℝ))) (hs : len3 sample ≠ 0)
    (hz : ∃ e ∈ table, len3 e.2 = 0) :
    scanRefs sample table 360 none = .error () :=
  scanRefs_error_of_zero_ref sample hs table 360 none hz

/-- Witness for the amended C3 at sample `(1,1,1)` and the singleton
all-zero table. -/
theorem c3_zero_ref_reaches_division_witness :
    len3 (1, 1, 1) ≠ 0 ∧
    (∃ e ∈ [("7", ((0 : ℝ), (0 : ℝ), (0 : ℝ)))], len3 e.2 = 0) ∧
    scanRefs (1, 1, 1) [("7", (0, 0, 0))] 360 none = .error () := by
  have h1 : len3 ((1 : ℝ), (1 : ℝ), (1 : ℝ)) ≠ 0 := by
    simp only [len3]
    rw [Real.sqrt_ne_zero']
    norm_num
  have h2 : ∃ e ∈ [("7", ((0 : ℝ), (0 : ℝ), (0 : ℝ)))], len3 e.2 = 0 :=
    ⟨("7", (0, 0, 0)), List.mem_singleton_self _, by simp [len3]⟩
  exact ⟨h1, h2, c3_zero_ref_reaches_division _ _ h1 h2⟩

/-- C5 counterexample: with the usable sample `(1,1,1)` and a table whose
entry `("7", (1,1,1))` matches it exactly, `get_ph` still returns `None`
to its caller (the label only goes to audio playback) — the matched pH
label string is never the value delivered to the caller. -/
theorem c5_counterexample :
    get_ph [("7", (1, 1, 1))] (1, 1, 1) =
      .ok ⟨.noneVal, some "7"⟩ := by
  have hl : len3 ((1 : ℝ), (1 : ℝ), (1 : ℝ)) * len3 ((1 : ℝ), (1 : ℝ), (1 : ℝ)) = 3 := by
    simp only [len3]
    rw [Real.mul_self_sqrt (by norm_num)]
    norm_num
  have hd : dot3 ((1 : ℝ), (1 : ℝ), (1 : ℝ)) ((1 : ℝ), (1 : ℝ), (1 : ℝ)) = 3 := by
    norm_num [dot3]
  unfold get_ph
  rw [if_neg (by norm_num)]
  simp only [scanRefs, hl, hd]
  rw [if_neg (by norm_num : (3 : ℝ) ≠ 0)]
  rw [show (3 : ℝ) / 3 = 1 by norm_num, Real.arccos_one]
  rw [if_pos (by norm_num : (0 : ℝ) < 360)]
  rfl

/-- C5 amended: the caller of `get_ph` receives `0` whenever the sample
triplet is all zero, regardless of the table contents; on a usable sample
every non-exceptional run returns `None` to the caller — the matched label
is announced via audio playback, never returned. -/
theorem c5_return_values (refData : List (String × (ℝ × ℝ × ℝ)))
    (sample : ℝ × ℝ × ℝ) :
    ((sample.1 = 0 ∧ sample.2.1 = 0 ∧ sample.2.2 = 0) →
      get_ph refData sample = .ok ⟨.zero, none⟩) ∧
    (¬(sample.1 = 0 ∧ sample.2.1 = 0 ∧ sample.2.2 = 0) →
      ∀ out, get_ph refData sample = .ok out → out.retval = .noneVal) := by
  constructor
  · intro h
    unfold get_ph
    rw [if_pos h]
  · intro h out hout
    unfold get_ph at hout
    rw [if_neg h] at hout
    cases hscan : scanRefs sample refData 360 none with
    | error e =>
        rw [hscan] at hout
        simp [Except.map] at hout
    | ok best =>
        rw [hscan] at hout
        simp only [Except.map, Except.ok.injEq] at hout
        rw [← hout]

/-- Witness for the amended C5: the all-zero sample yields the `0` return
even against a nonempty table. -/
theorem c5_return_values_witness :
    ((0 : ℝ) = 0 ∧ (0 : ℝ) = 0 ∧ (0 : ℝ) = 0) ∧
    get_ph [("7", (1, 1, 1))] (0, 0, 0) = .ok ⟨.zero, none⟩ :=
  ⟨⟨rfl, rfl, rfl⟩,
   (c5_return_values [("7", (1, 1, 1))] (0, 0, 0)).1 ⟨rfl, rfl, rfl⟩⟩

/-- Uniform positive scaling of the sample triplet. -/
def scale (k : ℝ) (s : ℝ × ℝ × ℝ) : ℝ × ℝ × ℝ :=
  (k * s.1, k * s.2.1, k * s.2.2)

lemma len3_scale (k : ℝ) (hk : 0 ≤ k) (s : ℝ × ℝ × ℝ) :
    len3 (scale k s) = k * len3 s := by
  simp only [len3, scale]
  rw [show (k * s.1) ^ 2 + (k * s.2.1) ^ 2 + (k * s.2.2) ^ 2 =
      k ^ 2 * (s.1 ^ 2 + s.2.1 ^ 2 + s.2.2 ^ 2) by ring]
  rw [Real.sqrt_mul (sq_nonneg k), Real.sqrt_sq hk]

lemma dot3_scale (k : ℝ) (v s : ℝ × ℝ × ℝ) :
    dot3 v (scale k s) = k * dot3 v s := by
  simp only [dot3, scale]
  ring

lemma scanRefs_scale (k : ℝ) (hk : 0 < k) (sample : ℝ × ℝ × ℝ) :
    ∀ (table : List (String × (ℝ × ℝ × ℝ))) (minAngle : ℝ)
      (best : Option String),
      scanRefs (scale k sample) table minAngle best =
        scanRefs sample table minAngle best := by
  intro table
  induction table with
  | nil => intro _ _; rfl
  | cons hd tl ih =>
      intro minAngle best
      obtain ⟨pH, v⟩ := hd
      have hlen : len3 v * len3 (scale k sample) =
          k * (len3 v * len3 sample) := by
        rw [len3_scale k hk.le]
        ring
      simp only [scanRefs, hlen, dot3_scale]
      by_cases h0 : len3 v * len3 sample = 0
      · rw [if_pos (by rw [h0, mul_zero]), if_pos h0]
      · rw [if_neg (mul_ne_zero hk.ne' h0), if_neg h0,
          mul_div_mul_left _ _ hk.ne']
        split
        · exact ih _ _
        · exact ih _ _

/-- C8: angle-distance classification is invariant under uniform positive
scaling of the sample: for every positive `k`, usable sample, and table
free of zero-magnitude entries, scanning with `k·sample` produces exactly
the same result (hence the same chosen label) as scanning with `sample`. -/
theorem c8_scale_invariant (k : ℝ) (sample : ℝ × ℝ × ℝ)
    (table : List (String × (ℝ × ℝ × ℝ))) (hk : 0 < k)
    (_hs : ¬(sample.1 = 0 ∧ sample.2.1 = 0 ∧ sample.2.2 = 0))
    (_href : ∀ e ∈ table, len3 e.2 ≠ 0) :
    scanRefs (scale k sample) table 360 none =
      scanRefs sample table 360 none :=
  scanRefs_scale k hk sample table 360 none

/-- Witness for C8 at `k = 2`, sample `(1,2,3)`, table `[("7",(1,1,1))]`. -/
theorem c8_scale_invariant_witness :
    (0 : ℝ) < 2 ∧
    scanRefs (scale 2 (1, 2, 3)) [("7", (1, 1, 1))] 360 none =
      scanRefs (1, 2, 3) [("7", (1, 1, 1))] 360 none := by
  have href : ∀ e ∈ [("7", ((1 : ℝ), (1 : ℝ), (1 : ℝ)))], len3 e.2 ≠ 0 := by
    intro e he
    rw [List.mem_singleton] at he
    subst he
    simp only [len3]
    rw [Real.sqrt_ne_zero']
    norm_num
  exact ⟨by norm_num,
    c8_scale_invariant 2 (1, 2, 3) [("7", (1, 1, 1))] (by norm_num)
      (by norm_num) href⟩

end PhSensor
